import Mathlib

set_option maxHeartbeats 1000000

/-!
Verification of the lieweb HTTP dispatch core (router, middleware chain,
endpoint adaptation, typed extraction) against its natural-language
specification.  The Rust sources embedded here are `src/router.rs`,
`src/request.rs`, `src/middleware/mod.rs`, `src/middleware/with_state.rs`,
`src/endpoint.rs` and `src/extracts.rs`.
-/

namespace Lieweb

/-- HTTP method, embedding hyper `http::Method` as used by `Router::find`
(only equality of methods is ever consulted). -/
inductive Method : Type where
  | GET
  | HEAD
  | POST
  | PUT
  | DELETE
  | OPTIONS
  | TRACE
  | CONNECT
  | PATCH
deriving DecidableEq

/-- A response: status code and body, embedding the `Response` produced from a
`StatusCode` or `LieResponse::new(status, body)` (src/response.rs). Header and
streaming details are not needed by any claim. -/
structure Resp : Type where
  status : Nat
  body : String
deriving DecidableEq

/-- A MIME type as compared by `extracts.rs`: a top-level type and a subtype
(the `mime` crate is an external collaborator; only `subtype()` comparisons
occur in the source). -/
structure Mime : Type where
  main : String
  sub : String
deriving DecidableEq

/-- The per-request carrier: the method and URI path of the hyper request, the
`RequestCtx` fields `params` and `route_path` (src/request.rs), the typed
extension map (keyed by a type-identity token, holding injected state), the
`Content-Type` header (outer `Option` = header presence, inner `Option` =
whether the mime crate parses it), and the at-most-once body slot
(`hyper::Request<Option<Body>>` in extracts.rs). -/
structure Req : Type where
  method : Method
  uriPath : String
  params : List (String × String)
  routePath : Option String
  stateExts : List (Nat × Nat)
  ctype : Option (Option Mime)
  body : Option (List Nat)

/-- A middleware, embedding `Middleware::handle(req, next)`: it receives the
request and the continuation for the remainder of the chain
(src/middleware/mod.rs). -/
def Mid : Type := Req → (Req → Resp) → Resp

/-- `RequestCtx::route_path`: the route-path cursor if set, else the URI path
(src/request.rs lines 278-288). -/
def routePathOf (req : Req) : String := req.routePath.getD req.uriPath

/-- `RequestCtx::set_route_path` (src/request.rs lines 290-296). -/
def setRoutePath (req : Req) (p : String) : Req := { req with routePath := some p }

/-- Modelled from the spec: `Params::insert` of the external route_recognizer
crate; Params is "an ordered collection of (name, captured substring) pairs"
and a merge "appends its captures to the parent's" (spec section 3), so insert
appends at the end. -/
def paramsInsert (ps : List (String × String)) (k v : String) : List (String × String) :=
  ps ++ [(k, v)]

/-- Modelled from the spec: `Params::find` of the external route_recognizer
crate, returning the first binding for a name. -/
def paramsFind (ps : List (String × String)) (k : String) : Option String :=
  (ps.find? (fun kv => kv.1 == k)).map (fun kv => kv.2)

/-- `RequestCtx::merge_params`: inserts every pair of the freshly captured
params into the context's params (src/request.rs lines 298-307). -/
def mergeParams (req : Req) (other : List (String × String)) : Req :=
  { req with params := other.foldl (fun acc kv => paramsInsert acc kv.1 kv.2) req.params }

/-- The wildcard name used for mounted sub-routers
(`LIEWEB_NESTED_ROUTER`, src/router.rs line 15). -/
def nestedKey : String := "--lieweb-nested-router"

/-- One segment of a route pattern: literal, `:name` parameter, or `*name`
wildcard tail. -/
inductive Seg : Type where
  | lit : String → Seg
  | param : String → Seg
  | wild : String → Seg

/-- Split a character list at every slash (auxiliary for `splitPath`). -/
def splitSegsAux : List Char → List Char → List String
  | [], acc => [String.mk acc.reverse]
  | c :: cs, acc =>
    if c = '/' then String.mk acc.reverse :: splitSegsAux cs []
    else splitSegsAux cs (c :: acc)

/-- Split a path into its non-empty `/`-separated segments. -/
def splitPath (p : String) : List String :=
  (splitSegsAux p.data []).filter (fun s => s ≠ "")

/-- Whether one string starts with another (Rust `str::starts_with`). -/
def strStarts (s p : String) : Bool := List.isPrefixOf p.data s.data

/-- Whether one string ends with another (Rust `str::ends_with`). -/
def strEnds (s p : String) : Bool := List.isSuffixOf p.data s.data

/-- Join path segments with slashes (the text captured by a wildcard tail). -/
def joinSegs : List String → String
  | [] => ""
  | [s] => s
  | s :: rest => s ++ ("/") ++ joinSegs rest

/-- Parse one pattern segment (`:name` captures a segment, `*name` a tail). -/
def parseSeg (s : String) : Seg :=
  match s.data with
  | [] => Seg.lit s
  | c :: cs =>
    if c = ':' then Seg.param (String.mk cs)
    else if c = '*' then Seg.wild (String.mk cs)
    else Seg.lit s

/-- Parse a registration pattern into segments. -/
def parsePattern (p : String) : List Seg := (splitPath p).map parseSeg

/-- Modelled from the spec: segment matching of the external route_recognizer
crate — "`:name` captures one segment, `*name` captures the remaining path
(only valid as final segment)" (spec section 6). -/
def segsMatch : List Seg → List String → Option (List (String × String))
  | [], [] => some []
  | [], _ :: _ => none
  | [Seg.wild n], rest => some [(n, joinSegs rest)]
  | Seg.lit s :: more, x :: xs => if x = s then segsMatch more xs else none
  | Seg.param n :: more, x :: xs => (segsMatch more xs).map (fun ps => (n, x) :: ps)
  | _, _ => none

/-- Specificity of one segment: static beats parameter beats wildcard. -/
def segScore : Seg → Nat
  | Seg.lit _ => 2
  | Seg.param _ => 1
  | Seg.wild _ => 0

/-- Specificity vector of a pattern. -/
def patScore (p : String) : List Nat := (parsePattern p).map segScore

/-- Lexicographic strictly-greater on specificity vectors; a pattern that ends
while the other continues is the more specific one. -/
def lexGT : List Nat → List Nat → Bool
  | _, [] => false
  | [], _ :: _ => true
  | x :: xs, y :: ys => if y < x then true else if x < y then false else lexGT xs ys

mutual
/-- A type-erased endpoint (`DynEndpoint`): an adapted handler (identified by a
token, its behaviour supplied by an environment), the default not-found
endpoint, the static `method_not_allowed` endpoint, or a `RouterEndpoint`
delegating to a sub-router (src/endpoint.rs lines 145-160). -/
inductive Ep : Type where
  | handler : Nat → Ep
  | nfDefault : Ep
  | mna : Ep
  | subR : Router → Ep

/-- A `MethodRoute`: the map from method to endpoint stored at one path
(src/router.rs line 13). -/
inductive MMap : Type where
  | nil : MMap
  | cons : Method → Ep → MMap → MMap

/-- A `Route` entry of the path router (src/router.rs lines 21-25). -/
inductive Route : Type where
  | methods : MMap → Route
  | sub : Router → Route
  | empty : Route

/-- The route table of the external `route_recognizer::Router`, as the ordered
list of (pattern, route) registrations. -/
inductive Table : Type where
  | nil : Table
  | cons : String → Route → Table → Table

/-- A `Router`: path router, not-found endpoint, middleware chain
(src/router.rs lines 39-43). -/
inductive Router : Type where
  | mk : Table → Ep → List Mid → Router
end

def Router.table : Router → Table
  | Router.mk t _ _ => t

def Router.nf : Router → Ep
  | Router.mk _ e _ => e

def Router.mids : Router → List Mid
  | Router.mk _ _ ms => ms

/-- `HashMap::get` on a method map. -/
def mmLookup (m : Method) : MMap → Option Ep
  | MMap.nil => none
  | MMap.cons m2 e rest => if m = m2 then some e else mmLookup m rest

/-- `HashMap::insert` on a method map (replaces an existing binding). -/
def mmInsert (m : Method) (e : Ep) : MMap → MMap
  | MMap.nil => MMap.cons m e MMap.nil
  | MMap.cons m2 e2 rest =>
    if m = m2 then MMap.cons m e rest else MMap.cons m2 e2 (mmInsert m e rest)

/-- `HashMap::is_empty` on a method map. -/
def mmIsEmpty : MMap → Bool
  | MMap.nil => true
  | MMap.cons _ _ _ => false

/-- Look up the route registered at exactly this pattern string. -/
def tableGet (path : String) : Table → Option Route
  | Table.nil => none
  | Table.cons p r rest => if p = path then some r else tableGet path rest

/-- Replace the route at this pattern string, or append a new registration
(`route_recognizer::Router::add` keyed by pattern). -/
def tableSet (path : String) (r : Route) : Table → Table
  | Table.nil => Table.cons path r Table.nil
  | Table.cons p r2 rest =>
    if p = path then Table.cons p r rest else Table.cons p r2 (tableSet path r rest)

/-- Modelled from the spec: `route_recognizer::Router::recognize` — try every
registered pattern against the path and keep the most specific match
("static > param > wildcard at each segment level", spec section 4.1); the
candidate carries its specificity vector while scanning. -/
def recogGo (segs : List String) : Table → Option (List Nat × Route × List (String × String))
  | Table.nil => none
  | Table.cons pat r rest =>
    let cur := (segsMatch (parsePattern pat) segs).map (fun ps => (patScore pat, r, ps))
    let best := recogGo segs rest
    match cur, best with
    | none, b => b
    | some c, none => some c
    | some c, some b => if lexGT b.1 c.1 then some b else some c

/-- Modelled from the spec: path recognition returning the matched route and
its captured params (external route_recognizer crate). -/
def recognize (t : Table) (path : String) : Option (Route × List (String × String)) :=
  (recogGo (splitPath path) t).map (fun x => (x.2.1, x.2.2))

/-- `Router::find` (src/router.rs lines 154-190): method hit returns the
endpoint with the captured params; a matched path whose method map lacks the
method returns `method_not_allowed` (or not-found when the map is empty), with
fresh empty params; a matched sub-router is returned with its params; no match
returns the not-found endpoint with empty params. -/
def find (r : Router) (path : String) (m : Method) : Ep × List (String × String) :=
  match recognize r.table path with
  | some (Route.methods mm, ps) =>
    match mmLookup m mm with
    | some ep => (ep, ps)
    | none => if mmIsEmpty mm then (r.nf, []) else (Ep.mna, [])
  | some (Route.sub r2, ps) => (Ep.subR r2, ps)
  | some (Route.empty, _) => (r.nf, [])
  | none => (r.nf, [])

/-- `Router::register` (src/router.rs lines 87-107): fetch-or-default the route
at this path, then insert the endpoint under the method (a `Sub` entry is
`unreachable!` in the source and is left untouched here). -/
def register (r : Router) (m : Method) (path : String) (e : Ep) : Router :=
  match r with
  | Router.mk t nf ms =>
    match tableGet path t with
    | some (Route.methods mm) => Router.mk (tableSet path (Route.methods (mmInsert m e mm)) t) nf ms
    | some (Route.sub _) => Router.mk t nf ms
    | some Route.empty => Router.mk (tableSet path (Route.methods (MMap.cons m e MMap.nil)) t) nf ms
    | none => Router.mk (tableSet path (Route.methods (MMap.cons m e MMap.nil)) t) nf ms

/-- The error message of `Router::merge` for a malformed mount point. -/
def mergeErrMsg : String :=
  "merge nested route, prefix must be a path, start with / and end with /"

/-- `Router::merge` (src/router.rs lines 132-152): require the mount point to
start and end with a slash, else return the error before touching the table;
otherwise add a wildcard-tail registration `p*--lieweb-nested-router` holding
the sub-router. Modelled as state passing: the returned router is the
(possibly updated) `self`. -/
def merge (r : Router) (pfx : String) (sub : Router) : Router × Except String Unit :=
  if strStarts pfx ("/") && strEnds pfx ("/") then
    (Router.mk (tableSet (pfx ++ ("*") ++ nestedKey) (Route.sub sub) r.table) r.nf r.mids,
     Except.ok ())
  else (r, Except.error mergeErrMsg)

/-- `Next::run` (src/middleware/mod.rs lines 49-59): pop the first middleware
and hand it the rest of the chain as the continuation; once the chain is
exhausted, call the endpoint. -/
def runNext : List Mid → (Req → Resp) → Req → Resp
  | [], ep, req => ep req
  | m :: rest, ep, req => m req (runNext rest ep)

/-- `not_found_endpoint` (src/router.rs lines 230-232). -/
def notFoundResp : Resp := ⟨404, ""⟩

/-- `method_not_allowed` (src/router.rs lines 234-236). -/
def mnaResp : Resp := ⟨405, ""⟩

/-- Sentinel for exhausted modelling fuel; never reached with fuel above the
mounting depth. -/
def fuelResp : Resp := ⟨0, ""⟩

/-- `Router::route` (src/router.rs lines 192-211): find the selection for the
current route path and method, merge the captured params into the context, set
the route-path cursor to the wildcard tail when a sub-router matched, then run
the middleware chain with the selected endpoint as terminal continuation.
`env` gives the behaviour of adapted handlers; the fuel bounds the mounting
depth of the recursion through `RouterEndpoint::call` (src/endpoint.rs lines
155-160). -/
def route (env : Nat → Req → Resp) : Nat → Router → Req → Resp
  | 0, _, _ => fuelResp
  | Nat.succ n, r, req =>
    runNext r.mids
      (fun q =>
        match (find r (routePathOf req) req.method).1 with
        | Ep.handler i => env i q
        | Ep.nfDefault => notFoundResp
        | Ep.mna => mnaResp
        | Ep.subR r2 => route env n r2 q)
      (match paramsFind (find r (routePathOf req) req.method).2 nestedKey with
        | some rest => setRoutePath (mergeParams req (find r (routePathOf req) req.method).2) rest
        | none => mergeParams req (find r (routePathOf req) req.method).2)

/-- `get_content_type` (src/extracts.rs lines 384-393): the Content-Type
header, parsed by the mime crate, defaulting to application/octet-stream when
the header is absent or does not parse. -/
def octetStream : Mime := ⟨"application", "octet-stream"⟩

def getContentType (req : Req) : Mime :=
  match req.ctype with
  | some (some m) => m
  | some none => octetStream
  | none => octetStream

/-- `ReadBodyRejection` (src/extracts.rs lines 222-238): the body slot was
already taken, or the transport-level read failed. -/
inductive ReadBodyRejection : Type where
  | bodyBeenTaken : ReadBodyRejection
  | readFailed : Nat → ReadBodyRejection
deriving DecidableEq

/-- `BodyBeenTaken::into_response` (src/extracts.rs lines 243-247). -/
def bodyBeenTakenResp : Resp := ⟨500, "Body has been taken"⟩

/-- `ReadBodyRejection::into_response` (src/extracts.rs lines 228-238). -/
def readBodyRejResp : ReadBodyRejection → Resp
  | ReadBodyRejection.bodyBeenTaken => bodyBeenTakenResp
  | ReadBodyRejection.readFailed _ => ⟨500, "Read body failed"⟩

/-- `read_body` (src/extracts.rs lines 395-406): `take()` the body slot —
leaving it `None` — failing with `BodyBeenTaken` when it already was `None`;
collecting the in-memory body never fails in this embedding, so `ReadFailed`
is unreachable here. -/
def readBody (req : Req) : Except ReadBodyRejection (List Nat) × Req :=
  match req.body with
  | none => (Except.error ReadBodyRejection.bodyBeenTaken, { req with body := none })
  | some b => (Except.ok b, { req with body := none })

/-- `JsonRejection` (src/extracts.rs lines 308-316). -/
inductive JsonRejection : Type where
  | readBody : ReadBodyRejection → JsonRejection
  | unexpectedContentType : Mime → JsonRejection
  | decodeFailed : JsonRejection
deriving DecidableEq

/-- `JsonRejection::into_response` (src/extracts.rs lines 318-332): content
type mismatch and decode failure each answer 400 Bad Request. -/
def jsonRejResp : JsonRejection → Resp
  | JsonRejection.readBody e => readBodyRejResp e
  | JsonRejection.unexpectedContentType _ => ⟨400, ""⟩
  | JsonRejection.decodeFailed => ⟨400, ""⟩

/-- `FromRequest for Json<T>` (src/extracts.rs lines 334-353): reject unless
the Content-Type subtype is json, then read the body, then decode; `decode`
stands for the external `serde_json::from_slice` for the target type. -/
def jsonFromRequest {α : Type} (decode : List Nat → Option α) (req : Req) :
    Except JsonRejection α × Req :=
  if (getContentType req).sub ≠ "json" then
    (Except.error (JsonRejection.unexpectedContentType (getContentType req)), req)
  else
    match readBody req with
    | (Except.error e, req1) => (Except.error (JsonRejection.readBody e), req1)
    | (Except.ok b, req1) =>
      match decode b with
      | some v => (Except.ok v, req1)
      | none => (Except.error JsonRejection.decodeFailed, req1)

/-- `FormRejection` (src/extracts.rs lines 261-269). -/
inductive FormRejection : Type where
  | readBody : ReadBodyRejection → FormRejection
  | unexpectedContentType : Mime → FormRejection
  | decodeFailed : FormRejection
deriving DecidableEq

/-- `FormRejection::into_response` (src/extracts.rs lines 271-285). -/
def formRejResp : FormRejection → Resp
  | FormRejection.readBody e => readBodyRejResp e
  | FormRejection.unexpectedContentType _ => ⟨400, ""⟩
  | FormRejection.decodeFailed => ⟨400, ""⟩

/-- `FromRequest for Form<T>` (src/extracts.rs lines 287-306): reject unless
the Content-Type subtype is x-www-form-urlencoded (only the subtype is
compared in the source), then read the body, then decode; `decode` stands for
the external `serde_urlencoded::from_bytes` for the target type. -/
def formFromRequest {α : Type} (decode : List Nat → Option α) (req : Req) :
    Except FormRejection α × Req :=
  if (getContentType req).sub ≠ "x-www-form-urlencoded" then
    (Except.error (FormRejection.unexpectedContentType (getContentType req)), req)
  else
    match readBody req with
    | (Except.error e, req1) => (Except.error (FormRejection.readBody e), req1)
    | (Except.ok b, req1) =>
      match decode b with
      | some v => (Except.ok v, req1)
      | none => (Except.error FormRejection.decodeFailed, req1)

/-- `StateRejection` (src/extracts.rs line 112). -/
inductive StateRejection : Type where
  | missing : StateRejection
deriving DecidableEq

/-- `StateRejection::into_response` (src/extracts.rs lines 114-122): a 500
Internal Server Error, since missing state is a server misconfiguration. -/
def stateRejResp : StateRejection → Resp
  | StateRejection.missing => ⟨500, "can not extract AppState"⟩

/-- `WithState::get_state` (src/middleware/with_state.rs lines 27-30): look the
state type up in the request's extension map, keyed by type identity. -/
def getState (tid : Nat) (req : Req) : Option Nat :=
  (req.stateExts.find? (fun kv => kv.1 == tid)).map (fun kv => kv.2)

/-- `WithState::append_extension` as a middleware (src/middleware/with_state.rs
lines 22-30): insert the state value into the extension map (replacing any
previous value of the same type) and forward to the rest of the chain. -/
def withStateMid (tid v : Nat) : Mid :=
  fun req k => k { req with stateExts := (tid, v) :: req.stateExts.filter (fun kv => kv.1 ≠ tid) }

/-- `FromRequest for AppState<T>` (src/extracts.rs lines 98-110): succeed with
the injected value, or fail with `StateRejection`; the request is untouched. -/
def appStateExtract (tid : Nat) : Req → Except StateRejection (Nat × Req) :=
  fun req =>
    match getState tid req with
    | some v => Except.ok (v, req)
    | none => Except.error StateRejection.missing

/-- An extraction-protocol implementer (`FromRequest`): from the mutable
request context, either a value plus the updated context, or a typed
rejection. -/
abbrev Extractor (Rej V : Type) : Type := Req → Except Rej (V × Req)

/-- The sequential extraction prescribed by the `impl_handler!` adapters
(src/endpoint.rs lines 99-143): run the declared parameters' extractors
left to right, threading the request context, stopping at the first
rejection. -/
def runExtractors {Rej V : Type} : List (Extractor Rej V) → Req → Except Rej (List V × Req)
  | [], req => Except.ok ([], req)
  | e :: rest, req =>
    match e req with
    | Except.error r => Except.error r
    | Except.ok (v, req1) =>
      match runExtractors rest req1 with
      | Except.error r => Except.error r
      | Except.ok (vs, req2) => Except.ok (v :: vs, req2)

/-- A handler of arity n adapted into an endpoint (`impl_handler!`,
src/endpoint.rs lines 99-143): on the first rejection return its converted
response; otherwise invoke the handler on the extracted values and convert its
return value. -/
def callHandler {Rej V : Type} (intoResp : Rej → Resp) (exts : List (Extractor Rej V))
    (h : List V → Resp) (req : Req) : Resp :=
  match runExtractors exts req with
  | Except.error rej => intoResp rej
  | Except.ok (vs, _) => h vs

/-- The request of the older `LieRequest` snapshot (src/request.rs): the body
slot holds a hyper body stream, modelled as its remaining chunks. -/
structure LieReq : Type where
  body : Option (List (List Nat))

/-- `LieRequest::read_body` (src/request.rs lines 99-115): drain the body
stream chunk by chunk into a buffer — the exhausted stream stays in the slot —
and return the accumulated bytes; an empty (`None`) slot yields `Ok` with
empty bytes. -/
def lieReadBody : LieReq → Except Nat (List Nat) × LieReq
  | LieReq.mk none => (Except.ok [], LieReq.mk none)
  | LieReq.mk (some chunks) => (Except.ok chunks.flatten, LieReq.mk (some []))

/-- A middleware that tags the request params with its identity and forwards,
used to observe the execution order of a chain. -/
def traceMid (i : Nat) : Mid :=
  fun req k => k (mergeParams req [("--trace", toString i)])

/-! Helper lemmas shared by the claim theorems. -/

theorem foldl_paramsInsert (l : List (String × String)) (init : List (String × String)) :
    l.foldl (fun acc kv => paramsInsert acc kv.1 kv.2) init = init ++ l := by
  induction l generalizing init with
  | nil => simp
  | cons x xs ih =>
    rw [List.foldl_cons, ih]
    simp [paramsInsert]

theorem mergeParams_eq (req : Req) (other : List (String × String)) :
    mergeParams req other = { req with params := req.params ++ other } := by
  simp [mergeParams, foldl_paramsInsert]

theorem mergeParams_nil (req : Req) : mergeParams req [] = req := by
  simp [mergeParams_eq]

theorem mmIsEmpty_false (mm : MMap) (h : mm ≠ MMap.nil) : mmIsEmpty mm = false := by
  cases mm with
  | nil => exact absurd rfl h
  | cons m e rest => rfl

theorem find_mna_of (r : Router) (path : String) (m : Method) (mm : MMap)
    (ps : List (String × String))
    (h1 : recognize r.table path = some (Route.methods mm, ps))
    (h2 : mmLookup m mm = none) (h3 : mm ≠ MMap.nil) :
    find r path m = (Ep.mna, []) := by
  simp [find, h1, h2, mmIsEmpty_false mm h3]

theorem find_nf_of_none (r : Router) (path : String) (m : Method)
    (h : recognize r.table path = none) :
    find r path m = (r.nf, []) := by
  simp [find, h]

theorem runExtractors_append_ok {Rej V : Type} (xs ys : List (Extractor Rej V)) (req req1 : Req)
    (vs : List V) (hxs : runExtractors xs req = Except.ok (vs, req1)) :
    runExtractors (xs ++ ys) req =
      Except.map (fun p => (vs ++ p.1, p.2)) (runExtractors ys req1) := by
  induction xs generalizing req vs with
  | nil =>
    simp [runExtractors] at hxs
    obtain ⟨h1, h2⟩ := hxs
    subst h1
    subst h2
    cases h : runExtractors ys req with
    | error r => simp [Except.map, h]
    | ok p => simp [Except.map, h]
  | cons e xs ih =>
    simp only [runExtractors] at hxs
    cases he : e req with
    | error r =>
      rw [he] at hxs
      simp at hxs
    | ok p =>
      rw [he] at hxs
      obtain ⟨v, r1⟩ := p
      simp only at hxs
      cases hx : runExtractors xs r1 with
      | error r =>
        rw [hx] at hxs
        simp at hxs
      | ok q =>
        obtain ⟨ws, r2⟩ := q
        rw [hx] at hxs
        simp at hxs
        obtain ⟨hv, hr⟩ := hxs
        subst hr
        simp only [List.cons_append, runExtractors, he]
        rw [List.append_eq, ih r1 ws hx]
        cases hys : runExtractors ys r2 with
        | error r => simp [Except.map, hys]
        | ok p2 => simp [Except.map, hys, ← hv]

theorem mergeParams_mergeParams (req : Req) (a b : List (String × String)) :
    mergeParams (mergeParams req a) b = mergeParams req (a ++ b) := by
  simp [mergeParams_eq]

/-! Claim theorems. -/

/-- Claim C5: executing `Next::run` on a middleware chain invokes the first
middleware with a continuation holding exactly the remaining list, an
exhausted chain invokes the endpoint, chains compose front to back, and a
chain of tagging middlewares delivers its tags to the terminal endpoint in
list order. -/
theorem next_run_front_to_back :
    (∀ (m : Mid) (ms : List Mid) (ep : Req → Resp) (req : Req),
       runNext (m :: ms) ep req = m req (runNext ms ep)) ∧
    (∀ (ep : Req → Resp) (req : Req), runNext [] ep req = ep req) ∧
    (∀ (ms1 ms2 : List Mid) (ep : Req → Resp),
       runNext (ms1 ++ ms2) ep = runNext ms1 (runNext ms2 ep)) ∧
    (∀ (ids : List Nat) (ep : Req → Resp) (req : Req),
       runNext (ids.map traceMid) ep req =
         ep (mergeParams req (ids.map (fun i => ("--trace", toString i))))) := by
  refine ⟨fun m ms ep req => rfl, fun ep req => rfl, ?_, ?_⟩
  · intro ms1 ms2 ep
    induction ms1 with
    | nil => funext req; rfl
    | cons m ms ih => funext req; simp [runNext, ih]
  · intro ids ep req
    induction ids generalizing req with
    | nil => simp [runNext, mergeParams_nil]
    | cons i ids ih =>
      simp only [List.map_cons, runNext, traceMid]
      rw [ih, mergeParams_mergeParams]
      rfl

/-- Claim C9: an adapted handler runs its parameter extractors strictly left to
right threading the context; the first rejection is converted to the response
immediately — independently of the remaining extractors and of the handler
body — and when every extraction succeeds the handler is invoked on the
extracted values. -/
theorem handler_extraction_order {Rej V : Type} (intoResp : Rej → Resp) :
    (∀ (e : Extractor Rej V) (rest : List (Extractor Rej V)) (req : Req),
       runExtractors (e :: rest) req =
         (match e req with
          | Except.error r => Except.error r
          | Except.ok (v, req1) =>
            match runExtractors rest req1 with
            | Except.error r => Except.error r
            | Except.ok (vs, req2) => Except.ok (v :: vs, req2))) ∧
    (∀ (pre : List (Extractor Rej V)) (e : Extractor Rej V) (post : List (Extractor Rej V))
       (h : List V → Resp) (req req1 : Req) (vs : List V) (rej : Rej),
       runExtractors pre req = Except.ok (vs, req1) →
       e req1 = Except.error rej →
       callHandler intoResp (pre ++ e :: post) h req = intoResp rej) ∧
    (∀ (exts : List (Extractor Rej V)) (h : List V → Resp) (req req1 : Req) (vs : List V),
       runExtractors exts req = Except.ok (vs, req1) →
       callHandler intoResp exts h req = h vs) := by
  refine ⟨fun e rest req => rfl, ?_, ?_⟩
  · intro pre e post h req req1 vs rej hpre herr
    have hall := runExtractors_append_ok pre (e :: post) req req1 vs hpre
    simp only [runExtractors, herr] at hall
    simp [callHandler, hall, Except.map]
  · intro exts h req req1 vs hexts
    simp [callHandler, hexts]

/-- Claim C8: a handler declaring an application-state parameter, executed with
no state value of that type in the extension map (no state-injection
middleware upstream), answers the 500 `StateRejection` response — the model is
total, so the serving process is never aborted — whereas the same endpoint
behind a `WithState` middleware receives the injected value. -/
theorem missing_state_yields_500 (tid : Nat) (h : List Nat → Resp) (req : Req) (v : Nat)
    (hnone : getState tid req = none) :
    runNext [] (callHandler stateRejResp [appStateExtract tid] h) req =
      ⟨500, "can not extract AppState"⟩ ∧
    (stateRejResp StateRejection.missing).status = 500 ∧
    runNext [withStateMid tid v] (callHandler stateRejResp [appStateExtract tid] h) req =
      h [v] := by
  refine ⟨?_, rfl, ?_⟩
  · simp [runNext, callHandler, runExtractors, appStateExtract, hnone, stateRejResp]
  · simp [runNext, withStateMid, callHandler, runExtractors, appStateExtract, getState,
      List.find?]

/-- A router with only a GET endpoint registered at /a, exhibiting the absence
of a HEAD-to-GET fallback in `Router::find`. -/
def headCexRouter : Router :=
  register (Router.mk Table.nil Ep.nfDefault []) Method.GET ("/a") (Ep.handler 0)

/-- Claim C1 counterexample: with only a GET endpoint registered at /a, a HEAD
request for /a selects the static `method_not_allowed` endpoint — not the GET
endpoint the claim promises (`Router::find` contains no HEAD fallback). -/
theorem head_fallback_counterexample :
    find headCexRouter ("/a") Method.GET = (Ep.handler 0, []) ∧
    find headCexRouter ("/a") Method.HEAD = (Ep.mna, []) ∧
    Ep.mna ≠ Ep.handler 0 :=
  ⟨rfl, rfl, fun h => Ep.noConfusion h⟩

/-- Claim C1 (amended): when a pattern matches the path and its method map has
no HEAD endpoint but does have a GET endpoint, `find` for HEAD selects the
method-not-allowed endpoint with empty params — there is no fallback to the
GET route. -/
theorem head_without_head_endpoint_is_mna (r : Router) (path : String) (mm : MMap)
    (ps : List (String × String)) (epg : Ep)
    (h1 : recognize r.table path = some (Route.methods mm, ps))
    (h2 : mmLookup Method.HEAD mm = none)
    (h3 : mmLookup Method.GET mm = some epg) :
    find r path Method.HEAD = (Ep.mna, []) := by
  have hne : mm ≠ MMap.nil := by
    intro h
    subst h
    simp [mmLookup] at h3
  exact find_mna_of r path Method.HEAD mm ps h1 h2 hne

/-- Claim C1 witness. -/
theorem head_without_head_endpoint_is_mna_witness :
    find headCexRouter ("/a") Method.HEAD = (Ep.mna, []) :=
  head_without_head_endpoint_is_mna headCexRouter ("/a")
    (MMap.cons Method.GET (Ep.handler 0) MMap.nil) [] (Ep.handler 0) rfl rfl rfl

/-- Claim C2: a matched path whose non-empty method map lacks the requested
method selects the method-not-allowed endpoint (a 405 response); an
unrecognized path selects the not-found endpoint with empty params (the
default yields 404); the two endpoints and their responses are distinct, both
at selection level and through the full `Router::route` pipeline. -/
theorem routing_404_405_distinct (r : Router) (path : String) (m : Method) :
    (∀ (mm : MMap) (ps : List (String × String)),
       recognize r.table path = some (Route.methods mm, ps) →
       mmLookup m mm = none → mm ≠ MMap.nil → find r path m = (Ep.mna, [])) ∧
    (recognize r.table path = none → find r path m = (r.nf, [])) ∧
    Ep.mna ≠ Ep.nfDefault ∧
    mnaResp.status = 405 ∧ notFoundResp.status = 404 ∧
    (∀ (env : Nat → Req → Resp) (n : Nat) (req : Req) (mm : MMap)
       (ps : List (String × String)),
       r.mids = [] → routePathOf req = path → req.method = m →
       recognize r.table path = some (Route.methods mm, ps) →
       mmLookup m mm = none → mm ≠ MMap.nil →
       route env (n + 1) r req = mnaResp) ∧
    (∀ (env : Nat → Req → Resp) (n : Nat) (req : Req),
       r.mids = [] → routePathOf req = path → req.method = m →
       recognize r.table path = none → r.nf = Ep.nfDefault →
       route env (n + 1) r req = notFoundResp) := by
  refine ⟨fun mm ps h1 h2 h3 => find_mna_of r path m mm ps h1 h2 h3,
    fun h => find_nf_of_none r path m h, fun h => Ep.noConfusion h, rfl, rfl, ?_, ?_⟩
  · intro env n req mm ps hm hp hme h1 h2 h3
    have hfind : find r (routePathOf req) req.method = (Ep.mna, []) := by
      rw [hp, hme]
      exact find_mna_of r path m mm ps h1 h2 h3
    simp [route, hfind, hm, runNext, paramsFind, mergeParams_nil]
  · intro env n req hm hp hme h1 h2
    have hfind : find r (routePathOf req) req.method = (Ep.nfDefault, []) := by
      rw [hp, hme, find_nf_of_none r path m h1, h2]
    simp [route, hfind, hm, runNext, paramsFind, mergeParams_nil]

/-- Router used by the C2 witness: only POST /p is registered. -/
def postOnlyRouter : Router :=
  register (Router.mk Table.nil Ep.nfDefault []) Method.POST ("/p") (Ep.handler 3)

/-- Claim C2 witness. -/
theorem routing_404_405_distinct_witness :
    find postOnlyRouter ("/p") Method.GET = (Ep.mna, []) ∧
    find postOnlyRouter ("/zz") Method.GET = (postOnlyRouter.nf, []) ∧
    route (fun i _ => ⟨200 + i, ""⟩) 1 postOnlyRouter
      ⟨Method.GET, "/p", [], none, [], none, none⟩ = mnaResp ∧
    route (fun i _ => ⟨200 + i, ""⟩) 1 postOnlyRouter
      ⟨Method.GET, "/zz", [], none, [], none, none⟩ = notFoundResp := by
  have h := routing_404_405_distinct postOnlyRouter ("/p") Method.GET
  have h2 := routing_404_405_distinct postOnlyRouter ("/zz") Method.GET
  refine ⟨h.1 (MMap.cons Method.POST (Ep.handler 3) MMap.nil) [] rfl rfl
      (fun hx => MMap.noConfusion hx),
    h2.2.1 rfl, ?_, ?_⟩
  · exact h.2.2.2.2.2.1 (fun i _ => ⟨200 + i, ""⟩) 0
      ⟨Method.GET, "/p", [], none, [], none, none⟩
      (MMap.cons Method.POST (Ep.handler 3) MMap.nil) [] rfl rfl rfl rfl rfl
      (fun hx => MMap.noConfusion hx)
  · exact h2.2.2.2.2.2.2 (fun i _ => ⟨200 + i, ""⟩) 0
      ⟨Method.GET, "/zz", [], none, [], none, none⟩ rfl rfl rfl rfl rfl

/-- Claim C3: `Router::merge` fails with the configuration error whenever the
mount point does not both start and end with a slash, returning the router
unchanged; a well-formed mount point succeeds and registers the sub-router as
a wildcard-tail entry at that mount point. -/
theorem merge_requires_slashes (r sub : Router) (pfx : String) :
    (¬ (strStarts pfx ("/") = true ∧ strEnds pfx ("/") = true) →
       merge r pfx sub = (r, Except.error mergeErrMsg)) ∧
    (strStarts pfx ("/") = true → strEnds pfx ("/") = true →
       merge r pfx sub =
         (Router.mk (tableSet (pfx ++ ("*") ++ nestedKey) (Route.sub sub) r.table)
            r.nf r.mids,
          Except.ok ())) := by
  constructor
  · intro h
    simp only [merge]
    rw [if_neg]
    simpa using h
  · intro h1 h2
    simp only [merge]
    rw [if_pos (by simp [h1, h2])]

/-- Claim C3 witness. -/
theorem merge_requires_slashes_witness :
    merge (Router.mk Table.nil Ep.nfDefault []) ("v2/") (Router.mk Table.nil Ep.nfDefault []) =
      (Router.mk Table.nil Ep.nfDefault [], Except.error mergeErrMsg) ∧
    merge (Router.mk Table.nil Ep.nfDefault []) ("/v2/") (Router.mk Table.nil Ep.nfDefault []) =
      (Router.mk
        (tableSet (("/v2/" : String) ++ ("*") ++ nestedKey)
          (Route.sub (Router.mk Table.nil Ep.nfDefault []))
          (Router.mk Table.nil Ep.nfDefault []).table)
        (Router.mk Table.nil Ep.nfDefault []).nf (Router.mk Table.nil Ep.nfDefault []).mids,
       Except.ok ()) :=
  ⟨(merge_requires_slashes (Router.mk Table.nil Ep.nfDefault [])
      (Router.mk Table.nil Ep.nfDefault []) ("v2/")).1 (by decide),
   (merge_requires_slashes (Router.mk Table.nil Ep.nfDefault [])
      (Router.mk Table.nil Ep.nfDefault []) ("/v2/")).2 (by decide) (by decide)⟩

/-- Claim C6 counterexample: through `LieRequest::read_body` (src/request.rs),
a first read of a one-chunk body leaves the exhausted stream in the slot (the
slot does not become `None`), and a second read returns `Ok` with empty bytes
instead of a rejection. -/
theorem read_body_counterexample :
    (lieReadBody (LieReq.mk (some [[7]]))).2.body ≠ none ∧
    (lieReadBody ((lieReadBody (LieReq.mk (some [[7]]))).2)).1 =
      Except.ok ([] : List Nat) := by
  constructor
  · simp [lieReadBody]
  · rfl

/-- Claim C6 (amended): through the extraction-path `read_body`
(src/extracts.rs), a first read takes the body — the slot becomes `None` — and
a second read fails with the distinct `BodyBeenTaken` rejection (a 500 "Body
has been taken" response); the legacy `LieRequest::read_body` instead leaves
the slot occupied and yields empty bytes, as the counterexample shows. -/
theorem read_body_consume_once (req : Req) (b : List Nat) (hb : req.body = some b) :
    readBody req = (Except.ok b, { req with body := none }) ∧
    (readBody { req with body := none }).1 = Except.error ReadBodyRejection.bodyBeenTaken ∧
    readBodyRejResp ReadBodyRejection.bodyBeenTaken = ⟨500, "Body has been taken"⟩ := by
  refine ⟨?_, rfl, rfl⟩
  simp [readBody, hb]

/-- Claim C6 witness. -/
theorem read_body_consume_once_witness :
    readBody ⟨Method.POST, "/", [], none, [], none, some [1, 2]⟩ =
      (Except.ok [1, 2],
       { (⟨Method.POST, "/", [], none, [], none, some [1, 2]⟩ : Req) with body := none }) :=
  (read_body_consume_once ⟨Method.POST, "/", [], none, [], none, some [1, 2]⟩ [1, 2] rfl).1

theorem json_ct_mismatch {α : Type} (dj : List Nat → Option α) (req : Req)
    (h : (getContentType req).sub ≠ "json") :
    jsonFromRequest dj req =
      (Except.error (JsonRejection.unexpectedContentType (getContentType req)), req) := by
  simp [jsonFromRequest, h]

theorem json_decode_failed {α : Type} (dj : List Nat → Option α) (req : Req) (b : List Nat)
    (hct : (getContentType req).sub = "json") (hb : req.body = some b) (hd : dj b = none) :
    jsonFromRequest dj req =
      (Except.error JsonRejection.decodeFailed, { req with body := none }) := by
  simp [jsonFromRequest, hct, readBody, hb, hd]

theorem json_ok_subtype {α : Type} (dj : List Nat → Option α) (req req1 : Req) (v : α)
    (hok : jsonFromRequest dj req = (Except.ok v, req1)) :
    (getContentType req).sub = "json" := by
  by_contra hne
  rw [json_ct_mismatch dj req hne] at hok
  simp at hok

theorem form_ct_mismatch {α : Type} (df : List Nat → Option α) (req : Req)
    (h : (getContentType req).sub ≠ "x-www-form-urlencoded") :
    formFromRequest df req =
      (Except.error (FormRejection.unexpectedContentType (getContentType req)), req) := by
  simp [formFromRequest, h]

theorem form_decode_failed {α : Type} (df : List Nat → Option α) (req : Req) (b : List Nat)
    (hct : (getContentType req).sub = "x-www-form-urlencoded") (hb : req.body = some b)
    (hd : df b = none) :
    formFromRequest df req =
      (Except.error FormRejection.decodeFailed, { req with body := none }) := by
  simp [formFromRequest, hct, readBody, hb, hd]

theorem form_ok_subtype {α : Type} (df : List Nat → Option α) (req req1 : Req) (v : α)
    (hok : formFromRequest df req = (Except.ok v, req1)) :
    (getContentType req).sub = "x-www-form-urlencoded" := by
  by_contra hne
  rw [form_ct_mismatch df req hne] at hok
  simp at hok

/-- The request of the C7 counterexample: Content-Type text/x-www-form-urlencoded
with body "a=1". -/
def formCexReq : Req :=
  ⟨Method.POST, "/", [], none, [], some (some ⟨"text", "x-www-form-urlencoded"⟩),
   some [97, 61, 49]⟩

/-- Claim C7 counterexample: form extraction succeeds for a request whose
Content-Type is text/x-www-form-urlencoded — not
application/x-www-form-urlencoded — because the source compares only the
subtype; the decoder stands for a serde target accepting the body "a=1". -/
theorem content_negotiation_counterexample :
    (formFromRequest (fun _ => some 0) formCexReq).1 = Except.ok 0 ∧
    getContentType formCexReq ≠ ⟨"application", "x-www-form-urlencoded"⟩ := by
  exact ⟨rfl, by decide⟩

/-- Claim C7 (amended): JSON extraction requires Content-Type subtype json and
form extraction requires Content-Type subtype x-www-form-urlencoded (the
top-level type is not checked); a mismatch is rejected with a 400 response
before the body is read (the request is returned untouched), and a decode
failure after a correct content type is the distinct `DecodeFailed` rejection,
also a 400 response. -/
theorem content_negotiation {α β : Type} (dj : List Nat → Option α) (df : List Nat → Option β) :
    (∀ (req : Req), (getContentType req).sub ≠ "json" →
       jsonFromRequest dj req =
         (Except.error (JsonRejection.unexpectedContentType (getContentType req)), req)) ∧
    (∀ (req : Req) (b : List Nat),
       (getContentType req).sub = "json" → req.body = some b → dj b = none →
       jsonFromRequest dj req =
         (Except.error JsonRejection.decodeFailed, { req with body := none })) ∧
    (∀ (req req1 : Req) (v : α), jsonFromRequest dj req = (Except.ok v, req1) →
       (getContentType req).sub = "json") ∧
    (∀ (m : Mime), jsonRejResp (JsonRejection.unexpectedContentType m) = ⟨400, ""⟩) ∧
    jsonRejResp JsonRejection.decodeFailed = ⟨400, ""⟩ ∧
    (∀ (m : Mime), JsonRejection.decodeFailed ≠ JsonRejection.unexpectedContentType m) ∧
    (∀ (req : Req), (getContentType req).sub ≠ "x-www-form-urlencoded" →
       formFromRequest df req =
         (Except.error (FormRejection.unexpectedContentType (getContentType req)), req)) ∧
    (∀ (req : Req) (b : List Nat),
       (getContentType req).sub = "x-www-form-urlencoded" → req.body = some b → df b = none →
       formFromRequest df req =
         (Except.error FormRejection.decodeFailed, { req with body := none })) ∧
    (∀ (req req1 : Req) (v : β), formFromRequest df req = (Except.ok v, req1) →
       (getContentType req).sub = "x-www-form-urlencoded") ∧
    (∀ (m : Mime), formRejResp (FormRejection.unexpectedContentType m) = ⟨400, ""⟩) ∧
    formRejResp FormRejection.decodeFailed = ⟨400, ""⟩ :=
  ⟨fun req h => json_ct_mismatch dj req h,
   fun req b h1 h2 h3 => json_decode_failed dj req b h1 h2 h3,
   fun req req1 v h => json_ok_subtype dj req req1 v h,
   fun _ => rfl, rfl,
   fun _ h => JsonRejection.noConfusion h,
   fun req h => form_ct_mismatch df req h,
   fun req b h1 h2 h3 => form_decode_failed df req b h1 h2 h3,
   fun req req1 v h => form_ok_subtype df req req1 v h,
   fun _ => rfl, rfl⟩

/-- The request of the C7 witness mismatch case: Content-Type text/plain. -/
def jsonCtReq : Req :=
  ⟨Method.POST, "/", [], none, [], some (some ⟨"text", "plain"⟩), some [123]⟩

/-- The request of the C7 witness decode-failure case. -/
def formDecodeReq : Req :=
  ⟨Method.POST, "/", [], none, [],
   some (some ⟨"application", "x-www-form-urlencoded"⟩), some [97]⟩

/-- Claim C7 witness. -/
theorem content_negotiation_witness :
    jsonFromRequest (fun _ => (none : Option Nat)) jsonCtReq =
      (Except.error (JsonRejection.unexpectedContentType (getContentType jsonCtReq)),
       jsonCtReq) ∧
    formFromRequest (fun _ => (none : Option Nat)) formDecodeReq =
      (Except.error FormRejection.decodeFailed, { formDecodeReq with body := none }) :=
  ⟨(content_negotiation (fun _ => (none : Option Nat)) (fun _ => (none : Option Nat))).1
      jsonCtReq (by decide),
   (content_negotiation (fun _ => (none : Option Nat))
      (fun _ => (none : Option Nat))).2.2.2.2.2.2.2.1 formDecodeReq [97] (by decide) rfl rfl⟩

/-- Claim C10: a request without a Content-Type header, or with one the mime
crate cannot parse, gets the default application/octet-stream content type, so
JSON and form extraction both reject it with the unexpected-content-type
rejection without touching the body. -/
theorem default_content_type_octet {α β : Type} (dj : List Nat → Option α)
    (df : List Nat → Option β) (req : Req)
    (h : req.ctype = none ∨ req.ctype = some none) :
    getContentType req = octetStream ∧
    jsonFromRequest dj req =
      (Except.error (JsonRejection.unexpectedContentType octetStream), req) ∧
    formFromRequest df req =
      (Except.error (FormRejection.unexpectedContentType octetStream), req) := by
  have hct : getContentType req = octetStream := by
    cases h with
    | inl h => simp [getContentType, h]
    | inr h => simp [getContentType, h]
  refine ⟨hct, ?_, ?_⟩
  · have hj := json_ct_mismatch dj req (by rw [hct]; decide)
    rw [hct] at hj
    exact hj
  · have hf := form_ct_mismatch df req (by rw [hct]; decide)
    rw [hct] at hf
    exact hf

/-- The request of the C10 witness: no Content-Type header at all. -/
def noCtReq : Req := ⟨Method.POST, "/", [], none, [], none, some [1]⟩

/-- Claim C10 witness. -/
theorem default_content_type_octet_witness :
    getContentType noCtReq = octetStream ∧
    jsonFromRequest (fun _ => (none : Option Nat)) noCtReq =
      (Except.error (JsonRejection.unexpectedContentType octetStream), noCtReq) :=
  ⟨(default_content_type_octet (fun _ => (none : Option Nat))
      (fun _ => (none : Option Nat)) noCtReq (Or.inl rfl)).1,
   (default_content_type_octet (fun _ => (none : Option Nat))
      (fun _ => (none : Option Nat)) noCtReq (Or.inl rfl)).2.1⟩

/-- Claim C4: when `find` selects a mounted sub-router, `Router::route` merges
the outer captures into the context and writes the wildcard tail into the
route-path cursor before delegating to the sub-router; the sub-router then
matches against the stripped suffix and appends its own captures after the
outer ones, so the handler sees outer-then-inner params and route-path equal
to the suffix. -/
theorem nested_route_delegation (env : Nat → Req → Resp) (n : Nat) (r sub : Router)
    (req : Req) (ps ps2 : List (String × String)) (rest : String) (i : Nat)
    (hm1 : r.mids = []) (hm2 : sub.mids = [])
    (hfind : find r (routePathOf req) req.method = (Ep.subR sub, ps))
    (hrest : paramsFind ps nestedKey = some rest)
    (hfind2 : find sub rest req.method = (Ep.handler i, ps2))
    (hrest2 : paramsFind ps2 nestedKey = none) :
    route env (n + 2) r req =
      route env (n + 1) sub { req with params := req.params ++ ps, routePath := some rest } ∧
    routePathOf { req with params := req.params ++ ps, routePath := some rest } = rest ∧
    route env (n + 2) r req =
      env i { req with params := (req.params ++ ps) ++ ps2, routePath := some rest } := by
  have hreq2 : setRoutePath (mergeParams req ps) rest =
      { req with params := req.params ++ ps, routePath := some rest } := by
    simp [setRoutePath, mergeParams_eq]
  have step1 : route env (n + 2) r req =
      route env (n + 1) sub { req with params := req.params ++ ps, routePath := some rest } := by
    show route env (Nat.succ (n + 1)) r req = _
    simp only [route, hfind, hrest, hm1, runNext]
    rw [hreq2]
  have hf2 : find sub
      (routePathOf { req with params := req.params ++ ps, routePath := some rest })
      ({ req with params := req.params ++ ps, routePath := some rest } : Req).method =
      (Ep.handler i, ps2) := hfind2
  have step2 : route env (n + 1) sub
      { req with params := req.params ++ ps, routePath := some rest } =
      env i { req with params := (req.params ++ ps) ++ ps2, routePath := some rest } := by
    show route env (Nat.succ n) sub _ = _
    simp only [route, hf2, hrest2, hm2, runNext]
    rw [mergeParams_eq]
  exact ⟨step1, rfl, step1.trans step2⟩

/-- The sub-router of the C4 witness, with GET /new registered. -/
def nestedSub : Router :=
  register (Router.mk Table.nil Ep.nfDefault []) Method.GET ("/new") (Ep.handler 1)

/-- The parent router of the C4 witness, with the sub-router mounted at
/v2/posts/. -/
def nestedParent : Router :=
  (merge (Router.mk Table.nil Ep.nfDefault []) ("/v2/posts/") nestedSub).1

/-- The request of the C4 witness, for GET /v2/posts/new. -/
def nestedReq : Req := ⟨Method.GET, "/v2/posts/new", [], none, [], none, none⟩

/-- Claim C4 witness. -/
theorem nested_route_delegation_witness :
    route (fun i q => ⟨100 + i + q.params.length, ""⟩) 2 nestedParent nestedReq =
      (fun (i : Nat) (q : Req) => (⟨100 + i + q.params.length, ""⟩ : Resp)) 1
        { nestedReq with params := ([] ++ [(nestedKey, "new")]) ++ [],
                         routePath := some ("new") } :=
  (nested_route_delegation (fun i q => ⟨100 + i + q.params.length, ""⟩) 0 nestedParent
    nestedSub nestedReq [(nestedKey, "new")] [] ("new") 1 rfl rfl rfl rfl rfl rfl).2.2

/-- Claim C8 witness. -/
theorem missing_state_yields_500_witness :
    runNext [] (callHandler stateRejResp [appStateExtract 5]
        (fun vs => ⟨200 + vs.length, ""⟩))
      ⟨Method.GET, "/", [], none, [], none, none⟩ = ⟨500, "can not extract AppState"⟩ :=
  (missing_state_yields_500 5 (fun vs => ⟨200 + vs.length, ""⟩)
    ⟨Method.GET, "/", [], none, [], none, none⟩ 7 rfl).1

/-- Claim C9 witness. -/
theorem handler_extraction_order_witness :
    callHandler (fun (n : Nat) => (⟨400 + n, ""⟩ : Resp))
      (([fun req => Except.ok (5, req)] : List (Extractor Nat Nat)) ++
        (fun _ => Except.error 3) :: ([fun req => Except.ok (9, req)] : List (Extractor Nat Nat)))
      (fun _ => ⟨200, ""⟩) ⟨Method.GET, "/", [], none, [], none, none⟩ = ⟨403, ""⟩ :=
  (handler_extraction_order (fun (n : Nat) => (⟨400 + n, ""⟩ : Resp))).2.1
    ([fun req => Except.ok (5, req)] : List (Extractor Nat Nat)) (fun _ => Except.error 3)
    ([fun req => Except.ok (9, req)] : List (Extractor Nat Nat)) (fun _ => ⟨200, ""⟩)
    ⟨Method.GET, "/", [], none, [], none, none⟩ ⟨Method.GET, "/", [], none, [], none, none⟩
    [5] 3 rfl rfl

end Lieweb
